import Mathlib

/-!
Verification development for the memo-drafter citation subsystem: a shallow
embedding of `src/extractor/record_citations.py`, `src/verifier/citation_parser.py`,
the verification adapters (`courtlistener.py`, `nd_statutes.py`, `local_opinions.py`)
and the orchestrator (`verifier.py`), together with theorems about the
behaviour those modules implement.  External effects (network, filesystem,
disk cache) are modelled as explicit parameters and state, so every embedded
operation is a total function.
-/

namespace MemoDrafter

/-- Regular-expression AST, a shallow embedding of the Python `re` patterns the
repository compiles.  Alternation prefers its left branch, `star` is greedy and
`starL` lazy, mirroring Python backtracking semantics.  `lbNeg` is a width-one
negative lookbehind. -/
inductive RE where
  | eps : RE
  | cls : (Char → Bool) → RE
  | cat : RE → RE → RE
  | alt : RE → RE → RE
  | star : RE → RE
  | starL : RE → RE
  | group : Nat → RE → RE
  | lbNeg : (Char → Bool) → RE

/-- Capture groups: (group number, start, stop); most recent assignment first. -/
abbrev Caps := List (Nat × Nat × Nat)

def capGet (caps : Caps) (n : Nat) : Option (Nat × Nat) :=
  (caps.find? (fun e => e.1 == n)).map (fun e => (e.2.1, e.2.2))

/-- Backtracking matcher in continuation-passing style.  The fuel bounds the
depth of the search; every pattern in this development consumes at least one
character per `star`/`starL` iteration (enforced by the progress guard, as in
Python), so a fuel of twice the text length plus a constant is always enough. -/
def runM : Nat → RE → List Char → Nat → Caps →
    (Nat → Caps → Option (Nat × Caps)) → Option (Nat × Caps)
  | 0, _, _, _, _, _ => none
  | _ + 1, .eps, _, pos, caps, k => k pos caps
  | _ + 1, .cls p, text, pos, caps, k =>
      match text.get? pos with
      | some c => if p c then k (pos + 1) caps else none
      | none => none
  | fuel + 1, .cat a b, text, pos, caps, k =>
      runM fuel a text pos caps (fun p c => runM fuel b text p c k)
  | fuel + 1, .alt a b, text, pos, caps, k =>
      (runM fuel a text pos caps k).orElse (fun _ => runM fuel b text pos caps k)
  | fuel + 1, .star a, text, pos, caps, k =>
      (runM fuel a text pos caps (fun p c =>
          if pos < p then runM fuel (.star a) text p c k else none)).orElse
        (fun _ => k pos caps)
  | fuel + 1, .starL a, text, pos, caps, k =>
      (k pos caps).orElse (fun _ =>
        runM fuel a text pos caps (fun p c =>
          if pos < p then runM fuel (.starL a) text p c k else none))
  | fuel + 1, .group n a, text, pos, caps, k =>
      runM fuel a text pos caps (fun p c => k p ((n, pos, p) :: c))
  | _ + 1, .lbNeg p, text, pos, caps, k =>
      if pos = 0 then k pos caps
      else
        match text.get? (pos - 1) with
        | some c => if p c then none else k pos caps
        | none => k pos caps

/-- Anchored match attempt at a position (Python `pattern.match` at `pos`). -/
def tryMatch (re : RE) (text : List Char) (pos : Nat) : Option (Nat × Caps) :=
  runM (2 * text.length + 100) re text pos [] (fun p c => some (p, c))

/-- A single match: start, stop, captures. -/
structure RMatch where
  mstart : Nat
  mstop : Nat
  caps : Caps
deriving DecidableEq

def searchFrom : Nat → RE → List Char → Nat → Option RMatch
  | 0, _, _, _ => none
  | fuel + 1, re, text, pos =>
      if pos ≤ text.length then
        match tryMatch re text pos with
        | some (e, c) => some ⟨pos, e, c⟩
        | none => searchFrom fuel re text (pos + 1)
      else none

/-- Python `pattern.search`: first match scanning left to right. -/
def reSearch (re : RE) (text : List Char) : Option RMatch :=
  searchFrom (text.length + 1) re text 0

def finditerFrom : Nat → RE → List Char → Nat → List RMatch
  | 0, _, _, _ => []
  | fuel + 1, re, text, pos =>
      if pos ≤ text.length then
        match tryMatch re text pos with
        | some (e, c) =>
            ⟨pos, e, c⟩ :: finditerFrom fuel re text (if pos < e then e else pos + 1)
        | none => finditerFrom fuel re text (pos + 1)
      else []

/-- Python `pattern.finditer`: non-overlapping matches, left to right. -/
def finditer (re : RE) (text : List Char) : List RMatch :=
  finditerFrom (text.length + 1) re text 0

/-- Python `pattern.sub` with empty replacement string. -/
def reSubFrom : Nat → RE → List Char → Nat → List Char
  | 0, _, _, _ => []
  | fuel + 1, re, text, pos =>
      if pos < text.length then
        match tryMatch re text pos with
        | some (e, _) =>
            if pos < e then reSubFrom fuel re text e
            else text.getD pos ' ' :: reSubFrom fuel re text (pos + 1)
        | none => text.getD pos ' ' :: reSubFrom fuel re text (pos + 1)
      else []

def reSubAll (re : RE) (text : List Char) : List Char :=
  reSubFrom (text.length + 1) re text 0

/-! ### Character and string helpers mirroring Python semantics -/

def isPySpace (c : Char) : Bool :=
  c == ' ' || c == '\t' || c == '\n' || c == '\r' || c == '\x0b' || c == '\x0c'

/-- Python `str.strip()`. -/
def pyStrip (s : List Char) : List Char :=
  ((s.dropWhile isPySpace).reverse.dropWhile isPySpace).reverse

/-- Python `str.split(sep)` for a single-character separator. -/
def splitOnChar (sep : Char) : List Char → List (List Char)
  | [] => [[]]
  | c :: rest =>
      let r := splitOnChar sep rest
      if c == sep then [] :: r
      else
        match r with
        | h :: t => (c :: h) :: t
        | [] => [[c]]

/-- Python `int()` on a string of decimal digits. -/
def digitsToNat (s : List Char) : Nat :=
  s.foldl (fun acc c => 10 * acc + (c.toNat - 48)) 0

/-- Python slice `s[a:b]` for `0 ≤ a ≤ b`. -/
def slice (s : List Char) (a b : Nat) : List Char := (s.take b).drop a

/-- `m.group(n)` as a substring of the matched text (`none` if the group did
not participate in the match). -/
def groupStr (text : List Char) (caps : Caps) (n : Nat) : Option (List Char) :=
  (capGet caps n).map (fun p => slice text p.1 p.2)

/-- Python `":".join`-style concatenation with a single-character separator. -/
def joinWithChar (sep : Char) : List (List Char) → List Char
  | [] => []
  | [x] => x
  | x :: xs => x ++ sep :: joinWithChar sep xs

/-- Python `str.zfill(width)`. -/
def pyZfill (s : List Char) (width : Nat) : List Char :=
  if width ≤ s.length then s
  else
    match s with
    | c :: rest =>
        if c == '+' || c == '-' then c :: (List.replicate (width - s.length) '0' ++ rest)
        else List.replicate (width - s.length) '0' ++ s
    | [] => List.replicate width '0'

/-! ### RE building sugar -/

def chr (c : Char) : RE := .cls (fun x => x == c)
def chrI (c : Char) : RE := .cls (fun x => x.toLower == c.toLower)
def rcat (l : List RE) : RE := l.foldr .cat .eps
def rstr (s : List Char) : RE := rcat (s.map chr)
def rstrI (s : List Char) : RE := rcat (s.map chrI)
def reDigit : RE := .cls Char.isDigit
def wsC : RE := .cls isPySpace
def rOpt (a : RE) : RE := .alt a .eps
def rPlus (a : RE) : RE := .cat a (.star a)

/-! ## `src/extractor/record_citations.py` -/

def dashCls : RE := .cls (fun c => c == '-' || c == '–' || c == '—')

/-- `_RE_PAREN_GROUP` (IGNORECASE). -/
def reParenGroup : RE := rcat [chr '(', .star wsC,
  .alt (rstrI ("R".toList))
    (.alt (rcat [rstrI ("Rec".toList), rOpt (chr '.')])
          (rcat [rstrI ("Idx".toList), rOpt (chr '.')])),
  .star wsC, rOpt (chr ':'), .star wsC, .star (.cls (fun c => c != ')')), chr ')']

/-- `_RE_INNER_RANGE` (no flags; explicit character classes in the source). -/
def reInnerRange : RE := rcat [
  .group 1 (rPlus reDigit), .star wsC, dashCls, .star wsC,
  rOpt (.alt
    (rcat [.cls (fun c => c == 'R' || c == 'r'), rOpt (rstr ("ec".toList)),
           rOpt (chr '.'), .star wsC, rOpt (chr ':'), .star wsC])
    (rcat [.cls (fun c => c == 'I' || c == 'i'), rstr ("dx".toList),
           rOpt (chr '.'), .star wsC])),
  .group 2 (rPlus reDigit)]

/-- `_RE_INNER_NUM`. -/
def reInnerNum : RE := .group 1 (rPlus reDigit)

/-- The character class of the negative lookbehind in `_RE_BARE`:
`[A-Za-z.]`. -/
def alphaDot (c : Char) : Bool := c.isAlpha || c == '.'

/-- `_RE_BARE` (IGNORECASE), with its width-one negative lookbehind guard. -/
def reBare : RE := rcat [
  .lbNeg alphaDot,
  .alt (rstrI ("R".toList)) (.alt (rstrI ("Rec".toList)) (rstrI ("Idx".toList))),
  rOpt (chr '.'), .star wsC, rOpt (chr ':'), .star wsC,
  .group 1 (rPlus reDigit),
  rOpt (rcat [.star wsC, dashCls, .star wsC,
    rOpt (.alt
      (rcat [chrI 'R', rOpt (rstrI ("ec".toList)), rOpt (chr '.'),
             .star wsC, rOpt (chr ':'), .star wsC])
      (rcat [rstrI ("Idx".toList), rOpt (chr '.'), .star wsC])),
    .group 2 (rPlus reDigit)])]

/-- `_RE_STRIP_PREFIX` (IGNORECASE, anchored with `^`). -/
def reStripPref : RE := rcat [.star wsC,
  .alt (rstrI ("R".toList))
    (.alt (rcat [rstrI ("Rec".toList), rOpt (chr '.')])
          (rcat [rstrI ("Idx".toList), rOpt (chr '.')])),
  .star wsC, rOpt (chr ':'), .star wsC]

/-- `_RE_STRIP_PREFIX.sub("", s)`: since the pattern is anchored with `^` it
can only replace a leading match. -/
def stripPref (s : List Char) : List Char :=
  match tryMatch reStripPref s 0 with
  | some (e, _) => s.drop e
  | none => s

/-- `_MAX_RANGE_SIZE`. -/
def MAX_RANGE_SIZE : Nat := 1000

/-- `_expand_range`. -/
def expandRange (start stop : Nat) : Finset Nat :=
  if stop < start then {start, stop}
  else if stop - start + 1 > MAX_RANGE_SIZE then {start, stop}
  else (List.range' start (stop + 1 - start)).toFinset

/-- The body of the per-segment loop of `_extract_from_paren_group`. -/
def segContribution (seg0 : List Char) : Finset Nat :=
  let segment := pyStrip seg0
  let segment := stripPref segment
  match tryMatch reInnerRange segment 0 with
  | some (_, caps) =>
      match groupStr segment caps 1, groupStr segment caps 2 with
      | some g1, some g2 => expandRange (digitsToNat g1) (digitsToNat g2)
      | _, _ => ∅
  | none =>
      let first_part := pyStrip ((splitOnChar ':' segment).headD [])
      match reSearch reInnerNum first_part with
      | some m =>
          match groupStr first_part m.caps 1 with
          | some g => {digitsToNat g}
          | none => ∅
      | none => ∅

/-- `_extract_from_paren_group`. -/
def extractFromParenGroup (group_text : List Char) : Finset Nat :=
  let interior := pyStrip group_text
  let interior := match interior with
    | '(' :: rest => rest
    | other => other
  let interior := if interior.getLast? == some ')' then interior.dropLast else interior
  (splitOnChar ',' interior).foldl (fun acc seg => acc ∪ segContribution seg) ∅

/-- `extract_record_numbers`. -/
def extract_record_numbers (text : List Char) : Finset Nat :=
  let paren_matches := finditer reParenGroup text
  let phase1 := paren_matches.foldl
    (fun acc m => acc ∪ extractFromParenGroup (slice text m.mstart m.mstop)) ∅
  let consumed_spans := paren_matches.map (fun m => (m.mstart, m.mstop))
  (finditer reBare text).foldl (fun acc m =>
    if consumed_spans.any (fun sp => sp.1 ≤ m.mstart && m.mstart < sp.2) then acc
    else
      match groupStr text m.caps 1 with
      | none => acc
      | some g1 =>
          let start_num := digitsToNat g1
          match groupStr text m.caps 2 with
          | some g2 => acc ∪ expandRange start_num (digitsToNat g2)
          | none => insert start_num acc) phase1

/-! ## `src/verifier/citation_parser.py` -/

/-- `PATTERNS["nd_case"]`: `(\d\x7b4\x7d)\s+ND\s+(\d+)`. -/
def reNdCase : RE := rcat [.group 1 (rcat [reDigit, reDigit, reDigit, reDigit]),
  rPlus wsC, chr 'N', chr 'D', rPlus wsC, .group 2 (rPlus reDigit)]

/-- `PATTERNS["nw2d"]`. -/
def reNw2d : RE := rcat [.group 1 (rPlus reDigit), rPlus wsC,
  rstr ("N.W.2d".toList), rPlus wsC, .group 2 (rPlus reDigit)]

/-- `PATTERNS["us_case"]`. -/
def reUsCase : RE := rcat [.group 1 (rPlus reDigit), rPlus wsC,
  rstr ("U.S.".toList), rPlus wsC, .group 2 (rPlus reDigit)]

def ndccCls : RE := .cls (fun c => c.isDigit || c == '-' || c == '.')
def parenChunk : RE := rcat [chr '(', .star (.cls (fun c => c != ')')), chr ')']

/-- `PATTERNS["ndcc"]`. -/
def reNdcc : RE := rcat [rstr ("N.D.C.C.".toList), .star wsC, chr '§', .star wsC,
  .group 1 (rcat [rPlus ndccCls, .star parenChunk])]

def ruleNumCls : RE := .cls (fun c => c.isDigit || c == '.')

/-- `PATTERNS["nd_rule_app"]`. -/
def reRuleApp : RE := rcat [rstr ("N.D.R.App.P.".toList), .star wsC,
  .group 1 (rPlus ruleNumCls)]

/-- `PATTERNS["nd_rule_civ"]`. -/
def reRuleCiv : RE := rcat [rstr ("N.D.R.Civ.P.".toList), .star wsC,
  .group 1 (rcat [rPlus ruleNumCls, .star parenChunk])]

/-- `PATTERNS["nd_rule_ev"]`. -/
def reRuleEv : RE := rcat [rstr ("N.D.R.Ev.".toList), .star wsC,
  .group 1 (rPlus ruleNumCls)]

/-- `PATTERNS["record"]`. -/
def reRecord : RE := rcat [chr '(', chr 'R', .group 1 (rPlus reDigit),
  rOpt (rcat [chr ':', .group 2 (rPlus reDigit)]),
  rOpt (rcat [chr ':', chr '¶', .group 3 (rPlus reDigit)]), chr ')']

/-- `PATTERNS`, in the fixed (insertion-ordered) dictionary order of the
source. -/
def PATTERNS : List (String × RE) := [
  ("nd_case", reNdCase), ("nw2d", reNw2d), ("us_case", reUsCase), ("ndcc", reNdcc),
  ("nd_rule_app", reRuleApp), ("nd_rule_civ", reRuleCiv), ("nd_rule_ev", reRuleEv),
  ("record", reRecord)]

/-- `Citation` dataclass. -/
structure Citation where
  raw_text : List Char
  citation_type : String
  normalized : List Char
  context : List Char
  line_number : Nat
deriving DecidableEq

/-- Python truthiness of an optional string (`None` and the empty string are
falsy). -/
def pyTruthy (s : Option (List Char)) : Bool :=
  match s with
  | none => false
  | some l => !l.isEmpty

/-- `_normalize`. -/
def normalizeCit (ctype : String) (line : List Char) (m : RMatch) : List Char :=
  let g := fun n => groupStr line m.caps n
  let g0 := slice line m.mstart m.mstop
  if ctype == "nd_case" then (g 1).getD [] ++ (" ND ".toList) ++ (g 2).getD []
  else if ctype == "nw2d" then (g 1).getD [] ++ (" N.W.2d ".toList) ++ (g 2).getD []
  else if ctype == "us_case" then (g 1).getD [] ++ (" U.S. ".toList) ++ (g 2).getD []
  else if ctype == "ndcc" then (g 1).getD []
  else if ctype.startsWith ("nd_rule") then pyStrip g0
  else if ctype == "record" then
    let parts := [(g 1).getD []]
      ++ (if pyTruthy (g 2) then [(g 2).getD []] else [])
      ++ (if pyTruthy (g 3) then [('¶' :: (g 3).getD [])] else [])
    joinWithChar ':' parts
  else pyStrip g0

/-- Construction of one `Citation` from a pattern match inside
`parse_citations`' inner loop (context window of 80 characters each side). -/
def mkCitation (ctype : String) (line_num : Nat) (line : List Char) (m : RMatch) :
    Citation :=
  let s := Nat.max 0 (m.mstart - 80)
  let e := Nat.min line.length (m.mstop + 80)
  { raw_text := slice line m.mstart m.mstop,
    citation_type := ctype,
    normalized := normalizeCit ctype line m,
    context := slice line s e,
    line_number := line_num }

def flatMapL (f : α → List β) : List α → List β
  | [] => []
  | x :: xs => f x ++ flatMapL f xs

/-- Python `enumerate(l, start=n)`. -/
def enumFromN (n : Nat) : List α → List (Nat × α)
  | [] => []
  | x :: xs => (n, x) :: enumFromN (n + 1) xs

/-- `text.split("\n")`. -/
def splitLinesPy (text : List Char) : List (List Char) := splitOnChar '\n' text

/-- `parse_citations`. -/
def parse_citations (text : List Char) : List Citation :=
  flatMapL (fun il =>
      flatMapL (fun p => (finditer p.2 il.2).map (fun m => mkCitation p.1 il.1 il.2 m))
        PATTERNS)
    (enumFromN 1 (splitLinesPy text))

/-- `parse_citations` instrumented with the pattern-library index and the match
start position of every produced citation (the citation itself is unchanged). -/
def parse_citations_tagged (text : List Char) : List (Citation × Nat × Nat) :=
  flatMapL (fun il =>
      flatMapL (fun kp =>
          (finditer kp.2.2 il.2).map
            (fun m => (mkCitation kp.2.1 il.1 il.2 m, kp.1, m.mstart)))
        (enumFromN 0 PATTERNS))
    (enumFromN 1 (splitLinesPy text))

/-- `extract_unique_case_citations` (first-seen deduplication by normalized
text, restricted to the three case kinds). -/
def extract_unique_case_citations (text : List Char) : List Citation :=
  ((parse_citations text).foldl (fun st cite =>
      if cite.citation_type == "nd_case" || cite.citation_type == "nw2d"
          || cite.citation_type == "us_case" then
        if st.1.contains cite.normalized then st
        else (cite.normalized :: st.1, st.2 ++ [cite])
      else st) (([] : List (List Char)), ([] : List Citation))).2

/-- `extract_unique_statute_citations`. -/
def extract_unique_statute_citations (text : List Char) : List Citation :=
  ((parse_citations text).foldl (fun st cite =>
      if cite.citation_type == "ndcc" then
        if st.1.contains cite.normalized then st
        else (cite.normalized :: st.1, st.2 ++ [cite])
      else st) (([] : List (List Char)), ([] : List Citation))).2

/-! ## `src/verifier/courtlistener.py` -/

/-- `VerificationResult` dataclass (field `exists` is a Lean keyword, hence
`exists_`).  Defaults are the dataclass defaults. -/
structure VerificationResult where
  exists_ : Bool
  case_name : String := ""
  full_citation : String := ""
  url : String := ""
  source : String := "courtlistener"
  error : String := ""
deriving DecidableEq

/-- The persistent disk cache of one adapter, keyed by normalized citation
text; each entry stores the result and the `expire` argument it was stored
with (`none` = no expiry).  `cacheSet` prepends, `cacheGet` reads the newest
entry, matching overwrite semantics. -/
abbrev CacheT := List (List Char × VerificationResult × Option Nat)

def cacheGet (c : CacheT) (k : List Char) : Option VerificationResult :=
  (c.find? (fun e => e.1 == k)).map (fun e => e.2.1)

def cacheGetExpire (c : CacheT) (k : List Char) : Option (Option Nat) :=
  (c.find? (fun e => e.1 == k)).map (fun e => e.2.2)

def cacheSet (c : CacheT) (k : List Char) (v : VerificationResult)
    (expire : Option Nat) : CacheT :=
  (k, v, expire) :: c

/-- Exceptions that can escape an adapter's lookup helper: an
`httpx.HTTPStatusError` raised by `raise_for_status`, or any other exception
with its message. -/
inductive NetExc where
  | httpStatus (code : Nat) (body : List Char)
  | exc (msg : String)
deriving DecidableEq

/-- The error string each `except` branch of
`CourtListenerClient.verify_citation` formats. -/
def NetExc.pyMessage : NetExc → String
  | .httpStatus code _ => "HTTP " ++ toString code
  | .exc m => m

def pyStripStr (s : String) : String := String.mk (pyStrip s.data)

/-- `CourtListenerClient` state after `__init__`. -/
structure CourtListenerClient where
  api_key : String
  available : Bool
deriving DecidableEq

/-- `CourtListenerClient.__init__`: strip comments and whitespace from the key;
`available` is the truthiness of the stripped key.  Total: construction never
raises. -/
def mkCourtListenerClient (api_key : String) : CourtListenerClient :=
  let key := if api_key == "" then ""
    else String.mk (pyStrip ((splitOnChar '#' api_key.data).headD []))
  { api_key := key, available := key != "" }

/-- One entry of the citation-lookup JSON response (`match["citation"]`,
`match["clusters"]` with each cluster's `case_name` and `absolute_url`). -/
structure CLMatch where
  citation : List Char
  clusters : List (String × String)
deriving DecidableEq

/-- `CourtListenerClient._lookup_citation`, given the network outcome: either a
connection-level exception message or a response (status code and parsed JSON
list).  `raise_for_status` turns a non-2xx status into an `httpStatus`
exception. -/
def clLookupCitation (citation : List Char)
    (resp : Except String (Nat × List CLMatch)) : Except NetExc VerificationResult :=
  match resp with
  | .error m => .error (.exc m)
  | .ok (status, data) =>
      if 200 ≤ status ∧ status ≤ 299 then
        .ok (match data.find? (fun mt => mt.citation == citation && !mt.clusters.isEmpty) with
          | some mt =>
              match mt.clusters.head? with
              | some cl =>
                  { exists_ := true, case_name := cl.1,
                    full_citation := String.mk citation,
                    url := "https://www.courtlistener.com" ++ cl.2,
                    source := "courtlistener" }
              | none => { exists_ := false, source := "courtlistener" }
          | none => { exists_ := false, source := "courtlistener" })
      else .error (.httpStatus status [])

/-- `CourtListenerClient.verify_citation`: unavailable short-circuit, cache
check, lookup, write-back with TTL policy, exception conversion.  Returns the
result and the updated cache. -/
def clVerifyCitation (st : CourtListenerClient) (cache : CacheT)
    (resp : Except String (Nat × List CLMatch)) (citation : List Char) :
    VerificationResult × CacheT :=
  if !st.available then
    ({ exists_ := false, error := "No API key", source := "courtlistener" }, cache)
  else
    match cacheGet cache citation with
    | some r => (r, cache)
    | none =>
        match clLookupCitation citation resp with
        | .ok result =>
            (result, cacheSet cache citation result
              (if result.exists_ then none else some 86400))
        | .error e =>
            ({ exists_ := false, error := NetExc.pyMessage e,
               source := "courtlistener" }, cache)

/-! ## `src/verifier/nd_statutes.py` -/

/-- Python `needle in hay` substring membership. -/
def containsSub (needle : List Char) : List Char → Bool
  | [] => needle.isEmpty
  | c :: rest => needle.isPrefixOf (c :: rest) || containsSub needle rest

/-- An `httpx` response as the scraper observes it. -/
structure HttpResp where
  status_code : Nat
  text : List Char
deriving DecidableEq

/-- `\(.*\)` used by `NDStatutesScraper._lookup` to strip subsections (`.`
does not match a newline). -/
def reParenSub : RE := rcat [chr '(', .star (.cls (fun c => c != '\n')), chr ')']

/-- `NDStatutesScraper._lookup`, with the two HTTP GETs supplied as outcomes
(`.error` = a raised exception's message).  Returns the lookup outcome and the
number of network calls initiated. -/
def ndStatutesLookup (net1 net2 : Except String HttpResp) (sect : List Char) :
    Except String VerificationResult × Nat :=
  let base_section := pyStrip (reSubAll reParenSub sect)
  let parts := splitOnChar '-' base_section
  if parts.length < 2 then
    (.ok { exists_ := false, source := "nd_statutes" }, 0)
  else
    let title := parts.headD []
    let chapter := (parts.get? 1).getD []
    let url := ("https://www.ndlegis.gov/cencode/t".toList) ++ pyZfill title 2
      ++ ("c".toList) ++ pyZfill chapter 2 ++ (".html".toList)
    match net1 with
    | .error m => (.error m, 1)
    | .ok resp1 =>
        if resp1.status_code == 200 && containsSub base_section resp1.text then
          (.ok { exists_ := true,
                 case_name := "N.D.C.C. § " ++ String.mk sect,
                 full_citation := "N.D.C.C. § " ++ String.mk sect,
                 url := String.mk url, source := "nd_statutes" }, 1)
        else
          match net2 with
          | .error m => (.error m, 2)
          | .ok resp2 =>
              if resp2.status_code == 200 && containsSub base_section resp2.text then
                (.ok { exists_ := true,
                       case_name := "N.D.C.C. § " ++ String.mk sect,
                       full_citation := "N.D.C.C. § " ++ String.mk sect,
                       url := "https://www.ndlegis.gov/search?q=N.D.C.C.+"
                         ++ String.mk base_section,
                       source := "nd_statutes" }, 2)
              else (.ok { exists_ := false, source := "nd_statutes" }, 2)

/-- `NDStatutesScraper.verify_statute`: cache check, lookup, write-back with
TTL policy, exception conversion.  Returns the result, the updated cache and
the number of network calls. -/
def ndVerifyStatute (cache : CacheT) (net1 net2 : Except String HttpResp)
    (sect : List Char) : VerificationResult × CacheT × Nat :=
  match cacheGet cache sect with
  | some r => (r, cache, 0)
  | none =>
      match ndStatutesLookup net1 net2 sect with
      | (.ok result, n) =>
          (result, cacheSet cache sect result
            (if result.exists_ then none else some 86400), n)
      | (.error m, n) =>
          ({ exists_ := false, error := m, source := "nd_statutes" }, cache, n)

/-! ## `src/verifier/local_opinions.py` -/

/-- `LocalOpinionLookup` state after `__init__`. -/
structure LocalOpinionLookup where
  data_dir : Option String
  markdown_dir : Option String
  available : Bool
deriving DecidableEq

def pathJoin (a b : String) : String := a ++ ("/") ++ b

/-- `LocalOpinionLookup.__init__`, with `Path.is_dir` supplied as an oracle.
Total: construction never raises; an empty directory string yields
`available = false` whatever the filesystem contains. -/
def mkLocalOpinionLookup (fsIsDir : String → Bool) (court_data_dir : String) :
    LocalOpinionLookup :=
  let data_dir := if court_data_dir == "" then none else some court_data_dir
  let markdown_dir := data_dir.map (fun d => pathJoin d ("markdown"))
  let available := match markdown_dir with
    | none => false
    | some md => fsIsDir md
  { data_dir := data_dir, markdown_dir := markdown_dir, available := available }

def nameCls : RE := .cls (fun c => c.isAlpha || c == '.' || c == '-' || isPySpace c)
def lazyPlus (a : RE) : RE := .cat a (.starL a)

/-- The case-name pattern of `LocalOpinionLookup._extract_case_name`. -/
def reCaseName : RE := rcat [
  .group 1 (rcat [.cls Char.isUpper, lazyPlus nameCls]),
  .star wsC, rOpt (rcat [chr ',', .star wsC, chr '\n']), .star wsC,
  chr 'v', chr '.', .star wsC, rOpt (chr '\n'), .star wsC,
  .group 2 (rcat [.cls Char.isUpper, lazyPlus nameCls]),
  .alt (rcat [.star wsC, chr '\n']) (chr ',')]

/-- `LocalOpinionLookup._extract_case_name` on the file's text. -/
def extractCaseName (text : List Char) : String :=
  let t := text.take 2000
  match reSearch reCaseName t with
  | some m =>
      match groupStr t m.caps 1, groupStr t m.caps 2 with
      | some g1, some g2 =>
          let p := pyStrip ((splitOnChar '\n' (pyStrip g1)).getLastD [])
          let d := pyStrip ((splitOnChar '\n' (pyStrip g2)).headD [])
          String.mk (p ++ (" v. ".toList) ++ d)
      | _, _ => ""
  | none => ""

/-- `LocalOpinionLookup.verify_citation`, with `Path.is_file` and
`read_text` supplied as oracles. -/
def localVerifyCitation (lk : LocalOpinionLookup) (fsIsFile : String → Bool)
    (readText : String → List Char) (citation : List Char) : VerificationResult :=
  if !lk.available then
    { exists_ := false, error := "Local data not configured", source := "local" }
  else
    match tryMatch reNdCase citation 0 with
    | none => { exists_ := false, error := "Not an ND citation", source := "local" }
    | some (_, caps) =>
        let year := (groupStr citation caps 1).getD []
        let num := (groupStr citation caps 2).getD []
        let filename := year ++ ("ND".toList) ++ num ++ (".md".toList)
        let filepath := pathJoin (pathJoin (lk.markdown_dir.getD ("")) (String.mk year))
          (String.mk filename)
        if fsIsFile filepath then
          { exists_ := true, case_name := extractCaseName (readText filepath),
            full_citation := String.mk citation, url := filepath, source := "local" }
        else
          { exists_ := false, error := "Not found in local data", source := "local" }

/-! ## `src/verifier/verifier.py` -/

/-- `VerificationReport` dataclass. -/
structure VerificationReport where
  verified : List (Citation × VerificationResult)
  unverified : List (Citation × VerificationResult)
  skipped : List Citation
  total_checked : Nat
deriving DecidableEq

/-- `VerificationReport.summary`. -/
def reportSummary (r : VerificationReport) : String :=
  "Verified: " ++ toString r.verified.length
    ++ " | Unverified: " ++ toString r.unverified.length
    ++ " | Skipped: " ++ toString r.skipped.length
    ++ " | Total: " ++ toString r.total_checked

/-- `CitationVerifier._verify_case`, with the three sources' availability flags
and lookup behaviours supplied as parameters.  Returns the result together
with the trace of sources actually attempted, in order. -/
def verifyCase (localAvailable clAvailable : Bool)
    (localLookup clLookup ndLookup : List Char → VerificationResult)
    (cite : Citation) : VerificationResult × List String :=
  let is_nd := cite.citation_type == "nd_case"
  let n := cite.normalized
  let notFound : VerificationResult :=
    let sources : List String :=
      (if is_nd && localAvailable then ["local data"] else [])
        ++ (if clAvailable then ["CourtListener"] else [])
        ++ (if is_nd then ["ND Courts"] else [])
    let error :=
      if sources.isEmpty then
        "No verification sources available (set COURTLISTENER_API_KEY or COURT_DATA)"
      else "Not found in " ++ String.intercalate (", ") sources
    { exists_ := false, full_citation := String.mk n, source := "none", error := error }
  let step3 := fun (att : List String) =>
    if is_nd then
      let r := ndLookup n
      let att := att ++ ["ND Courts"]
      if r.exists_ then (r, att) else (notFound, att)
    else (notFound, att)
  let step2 := fun (att : List String) =>
    if clAvailable then
      let r := clLookup n
      let att := att ++ ["CourtListener"]
      if r.exists_ then (r, att) else step3 att
    else step3 att
  if is_nd && localAvailable then
    let r := localLookup n
    if r.exists_ then (r, ["local data"]) else step2 ["local data"]
  else step2 []

/-- The ordered list of applicable fallback sources, with their results, as
the specification describes the chain (declarative side of claim C1). -/
def chainSources (is_nd localAvailable clAvailable : Bool)
    (localLookup clLookup ndLookup : List Char → VerificationResult)
    (n : List Char) : List (String × VerificationResult) :=
  (if is_nd && localAvailable then [(("local data" : String), localLookup n)] else [])
    ++ (if clAvailable then [(("CourtListener" : String), clLookup n)] else [])
    ++ (if is_nd then [(("ND Courts" : String), ndLookup n)] else [])

/-- Sources attempted when the chain stops at the first positive result. -/
def attemptedSources : List (String × VerificationResult) → List String
  | [] => []
  | (nm, r) :: rest => nm :: (if r.exists_ then [] else attemptedSources rest)

/-- The first positive result of the chain, if any. -/
def chainOutcome : List (String × VerificationResult) → Option VerificationResult
  | [] => none
  | (_, r) :: rest => if r.exists_ then some r else chainOutcome rest

/-- One iteration of the case/statute loops of `verify_memo`: increment
`total_checked`, then append to `verified` or `unverified`. -/
def vmStep (oracle : Citation → VerificationResult) (rep : VerificationReport)
    (cite : Citation) : VerificationReport :=
  let result := oracle cite
  let rep := { rep with total_checked := rep.total_checked + 1 }
  if result.exists_ then { rep with verified := rep.verified ++ [(cite, result)] }
  else { rep with unverified := rep.unverified ++ [(cite, result)] }

/-- One iteration of the skip loop of `verify_memo`. -/
def skipStep (rep : VerificationReport) (cite : Citation) : VerificationReport :=
  if cite.citation_type == "record" || cite.citation_type == "nd_rule_app"
      || cite.citation_type == "nd_rule_civ" || cite.citation_type == "nd_rule_ev" then
    { rep with skipped := rep.skipped ++ [cite] }
  else rep

/-- `CitationVerifier.verify_memo`, with the per-citation case verification
and the statute adapter supplied as oracles. -/
def verify_memo (caseOracle : Citation → VerificationResult)
    (statuteOracle : List Char → VerificationResult) (memo : List Char) :
    VerificationReport :=
  let rep0 : VerificationReport := ⟨[], [], [], 0⟩
  let rep1 := (extract_unique_case_citations memo).foldl (vmStep caseOracle) rep0
  let rep2 := (extract_unique_statute_citations memo).foldl
    (vmStep (fun c => statuteOracle c.normalized)) rep1
  (parse_citations memo).foldl skipStep rep2

/-! ## Helper lemmas about the matcher

One-step unfolding equations for `runM` and the scanners, to keep rewriting
under control. -/

theorem runM_zero (re : RE) (s : List Char) (pos : Nat) (caps : Caps)
    (k : Nat → Caps → Option (Nat × Caps)) : runM 0 re s pos caps k = none := by
  simp only [runM]

theorem runM_cls_step (p : Char → Bool) (f : Nat) (s : List Char) (pos : Nat)
    (caps : Caps) (k : Nat → Caps → Option (Nat × Caps)) :
    runM (f + 1) (.cls p) s pos caps k
      = match s.get? pos with
        | some c => if p c then k (pos + 1) caps else none
        | none => none := by
  simp only [runM]

theorem runM_cat_step (a b : RE) (f : Nat) (s : List Char) (pos : Nat)
    (caps : Caps) (k : Nat → Caps → Option (Nat × Caps)) :
    runM (f + 1) (.cat a b) s pos caps k
      = runM f a s pos caps (fun p c => runM f b s p c k) := by
  simp only [runM]

theorem runM_star_step (a : RE) (f : Nat) (s : List Char) (pos : Nat)
    (caps : Caps) (k : Nat → Caps → Option (Nat × Caps)) :
    runM (f + 1) (.star a) s pos caps k
      = (runM f a s pos caps (fun p c =>
            if pos < p then runM f (.star a) s p c k else none)).orElse
          (fun _ => k pos caps) := by
  simp only [runM]

theorem runM_group_step (n : Nat) (a : RE) (f : Nat) (s : List Char) (pos : Nat)
    (caps : Caps) (k : Nat → Caps → Option (Nat × Caps)) :
    runM (f + 1) (.group n a) s pos caps k
      = runM f a s pos caps (fun p c => k p ((n, pos, p) :: c)) := by
  simp only [runM]

theorem runM_lbNeg_step (p : Char → Bool) (f : Nat) (s : List Char) (pos : Nat)
    (caps : Caps) (k : Nat → Caps → Option (Nat × Caps)) :
    runM (f + 1) (.lbNeg p) s pos caps k
      = if pos = 0 then k pos caps
        else match s.get? (pos - 1) with
          | some c => if p c then none else k pos caps
          | none => k pos caps := by
  simp only [runM]

theorem searchFrom_step (re : RE) (f : Nat) (s : List Char) (pos : Nat) :
    searchFrom (f + 1) re s pos
      = if pos ≤ s.length then
          match tryMatch re s pos with
          | some (e, c) => some ⟨pos, e, c⟩
          | none => searchFrom f re s (pos + 1)
        else none := by
  simp only [searchFrom]

theorem finditerFrom_step (re : RE) (f : Nat) (s : List Char) (pos : Nat) :
    finditerFrom (f + 1) re s pos
      = if pos ≤ s.length then
          match tryMatch re s pos with
          | some (e, c) =>
              ⟨pos, e, c⟩ :: finditerFrom f re s (if pos < e then e else pos + 1)
          | none => finditerFrom f re s (pos + 1)
        else [] := by
  simp only [finditerFrom]

/-- Reading a character out of a successful `get?`. -/
theorem drop_cons_of_get? {s : List Char} {pos : Nat} {c : Char}
    (hget : s.get? pos = some c) : s.drop pos = c :: s.drop (pos + 1) := by
  have hlt : pos < s.length := by
    by_contra hcon
    rw [List.get?_eq_none.mpr (by omega)] at hget
    exact Option.noConfusion hget
  have h2 : s[pos] = c := by
    have h3 := List.get?_eq_getElem? s pos
    rw [hget] at h3
    exact (List.getElem?_eq_some.mp h3.symm).2
  rw [List.drop_eq_getElem_cons hlt, h2]

/-- A greedy star over a character class, run with a continuation that always
succeeds, consumes exactly the maximal run of matching characters. -/
theorem runM_star_cls (q : Char → Bool) (s : List Char)
    (k : Nat → Caps → Option (Nat × Caps)) (hk : ∀ p c, (k p c).isSome) :
    ∀ fuel pos caps, ((s.drop pos).takeWhile q).length + 1 ≤ fuel →
      runM fuel (.star (.cls q)) s pos caps k
        = k (pos + ((s.drop pos).takeWhile q).length) caps := by
  intro fuel
  induction fuel with
  | zero => intro pos caps h; omega
  | succ f ih =>
    intro pos caps h
    rw [runM_star_step]
    cases hget : s.get? pos with
    | none =>
        have hdrop : s.drop pos = [] := List.drop_eq_nil_of_le (List.get?_eq_none.mp hget)
        rw [hdrop]
        simp only [List.takeWhile_nil, List.length_nil, Nat.add_zero]
        cases f with
        | zero => rw [runM_zero]; rfl
        | succ f' => rw [runM_cls_step, hget]; rfl
    | some c =>
        have hdrop : s.drop pos = c :: s.drop (pos + 1) := drop_cons_of_get? hget
        cases hq : q c with
        | false =>
            have hrun : (s.drop pos).takeWhile q = [] := by
              rw [hdrop]; simp [List.takeWhile_cons, hq]
            rw [hrun]
            simp only [List.length_nil, Nat.add_zero]
            cases f with
            | zero => rw [runM_zero]; rfl
            | succ f' => rw [runM_cls_step, hget]; simp only [hq]; rfl
        | true =>
            have hrun : (s.drop pos).takeWhile q
                = c :: ((s.drop (pos + 1)).takeWhile q) := by
              rw [hdrop]; simp [List.takeWhile_cons, hq]
            rw [hrun] at h ⊢
            simp only [List.length_cons] at h ⊢
            cases f with
            | zero => omega
            | succ f' =>
                rw [runM_cls_step, hget]
                simp only [hq, if_true]
                have hlt : pos < pos + 1 := Nat.lt_succ_self pos
                rw [if_pos hlt]
                rw [ih (pos + 1) caps (by omega)]
                obtain ⟨v, hv⟩ := Option.isSome_iff_exists.mp
                  (hk (pos + 1 + ((s.drop (pos + 1)).takeWhile q).length) caps)
                rw [hv]
                have harith : pos + 1 + ((s.drop (pos + 1)).takeWhile q).length
                    = pos + (((s.drop (pos + 1)).takeWhile q).length + 1) := by omega
                rw [harith] at hv
                rw [hv]
                rfl

/-- `_RE_INNER_NUM` matched at a position: succeeds exactly on a digit,
capturing the maximal digit run as group 1. -/
theorem runM_innerNum (s : List Char) (pos : Nat) :
    ∀ fuel, s.length + 4 ≤ fuel →
      runM fuel reInnerNum s pos [] (fun p c => some (p, c))
        = match s.get? pos with
          | some c =>
              if c.isDigit then
                some (pos + 1 + ((s.drop (pos + 1)).takeWhile Char.isDigit).length,
                  [(1, pos, pos + 1 + ((s.drop (pos + 1)).takeWhile Char.isDigit).length)])
              else none
          | none => none := by
  intro fuel hfuel
  obtain ⟨f, rfl⟩ : ∃ f, fuel = f + 3 := ⟨fuel - 3, by omega⟩
  show runM (f + 3) (.group 1 (.cat (.cls Char.isDigit) (.star (.cls Char.isDigit))))
      s pos [] (fun p c => some (p, c)) = _
  rw [runM_group_step, runM_cat_step, runM_cls_step]
  cases hget : s.get? pos with
  | none => rfl
  | some c =>
      cases hdig : c.isDigit with
      | false => simp only [hdig]; rfl
      | true =>
          simp only [hdig, if_true]
          rw [runM_star_cls Char.isDigit s _ (fun p c => by simp) (f + 1) (pos + 1) []
              (by
                have hle : ((s.drop (pos + 1)).takeWhile Char.isDigit).length ≤ s.length := by
                  calc ((s.drop (pos + 1)).takeWhile Char.isDigit).length
                      ≤ (s.drop (pos + 1)).length :=
                        (List.takeWhile_prefix _).length_le
                    _ ≤ s.length := by simp [List.length_drop]
                omega)]

/-- The first maximal run of decimal digits in a string, if any. -/
def firstDigitRun : List Char → Option (List Char)
  | [] => none
  | c :: rest =>
      if c.isDigit then some (c :: rest.takeWhile Char.isDigit)
      else firstDigitRun rest

theorem slice_eq_take_drop (s : List Char) (a b : Nat) :
    slice s a b = (s.drop a).take (b - a) := by
  simp [slice, List.drop_take]

/-- Bridge between `reSearch reInnerNum` followed by reading group 1 and the
direct scan `firstDigitRun`. -/
theorem searchFrom_innerNum (s : List Char) :
    ∀ fuel pos, s.length + 1 ≤ fuel + pos →
      (match searchFrom fuel reInnerNum s pos with
       | some m => groupStr s m.caps 1
       | none => none) = firstDigitRun (s.drop pos) := by
  intro fuel
  induction fuel with
  | zero =>
      intro pos h
      have hdrop : s.drop pos = [] := List.drop_eq_nil_of_le (by omega)
      simp [searchFrom, hdrop, firstDigitRun]
  | succ f ih =>
      intro pos h
      have htm : tryMatch reInnerNum s pos
          = match s.get? pos with
            | some c =>
                if c.isDigit then
                  some (pos + 1 + ((s.drop (pos + 1)).takeWhile Char.isDigit).length,
                    [(1, pos, pos + 1 + ((s.drop (pos + 1)).takeWhile Char.isDigit).length)])
                else none
            | none => none :=
        runM_innerNum s pos (2 * s.length + 100) (by omega)
      rw [searchFrom_step]
      by_cases hpos : pos ≤ s.length
      · rw [if_pos hpos, htm]
        cases hget : s.get? pos with
        | none =>
            have hlen : s.length ≤ pos := List.get?_eq_none.mp hget
            have hdrop : s.drop pos = [] := List.drop_eq_nil_of_le hlen
            have hdrop1 : s.drop (pos + 1) = [] := List.drop_eq_nil_of_le (by omega)
            have hrec := ih (pos + 1) (by omega)
            rw [hdrop1] at hrec
            rw [hdrop]
            simpa [firstDigitRun] using hrec
        | some c =>
            have hdrop : s.drop pos = c :: s.drop (pos + 1) := drop_cons_of_get? hget
            cases hdig : c.isDigit with
            | false =>
                simp only [hdig, Bool.false_eq_true, if_false]
                rw [ih (pos + 1) (by omega), hdrop]
                simp [firstDigitRun, hdig]
            | true =>
                simp only [hdig, if_true]
                rw [hdrop]
                simp only [firstDigitRun, hdig, if_true]
                show some (slice s pos
                  (pos + 1 + ((s.drop (pos + 1)).takeWhile Char.isDigit).length)) = _
                rw [slice_eq_take_drop]
                have harith : pos + 1 + ((s.drop (pos + 1)).takeWhile Char.isDigit).length - pos
                    = ((s.drop (pos + 1)).takeWhile Char.isDigit).length + 1 := by omega
                rw [harith, hdrop]
                simp only [List.take_succ_cons, Option.some.injEq]
                congr 1
                have hpref := List.takeWhile_prefix (p := Char.isDigit)
                  (l := s.drop (pos + 1))
                exact (List.prefix_iff_eq_take.mp hpref).symm
      · rw [if_neg hpos]
        have hdrop : s.drop pos = [] := List.drop_eq_nil_of_le (by omega)
        simp [hdrop, firstDigitRun]

theorem reSearch_innerNum (s : List Char) :
    (match reSearch reInnerNum s with
     | some m => groupStr s m.caps 1
     | none => none) = firstDigitRun s := by
  have h := searchFrom_innerNum s (s.length + 1) 0 (by omega)
  simpa [reSearch] using h

theorem splitOnChar_ne_nil (sep : Char) (s : List Char) : splitOnChar sep s ≠ [] := by
  induction s with
  | nil => simp [splitOnChar]
  | cons c rest ih =>
      simp only [splitOnChar]
      cases hc : c == sep with
      | true => simp
      | false =>
          cases hr : splitOnChar sep rest with
          | nil => exact absurd hr ih
          | cons h t => simp [hr]

/-- The first field of a Python `split` is the maximal prefix free of the
separator. -/
theorem splitOnChar_headD (sep : Char) (s : List Char) :
    (splitOnChar sep s).headD [] = s.takeWhile (fun c => c != sep) := by
  induction s with
  | nil => rfl
  | cons c rest ih =>
      simp only [splitOnChar, List.takeWhile_cons]
      cases hc : c == sep with
      | true => simp [bne, hc]
      | false =>
          cases hr : splitOnChar sep rest with
          | nil => exact absurd hr (splitOnChar_ne_nil sep rest)
          | cons h t =>
              rw [hr] at ih
              simp only [List.headD_cons] at ih
              simp [bne, hc, ih]

/-- Every produced match of a `finditer` scan is an anchored match of the
pattern at its own start position. -/
theorem finditerFrom_mem_tryMatch (re : RE) (s : List Char) :
    ∀ fuel pos m, m ∈ finditerFrom fuel re s pos →
      tryMatch re s m.mstart = some (m.mstop, m.caps) := by
  intro fuel
  induction fuel with
  | zero => intro pos m hm; simp [finditerFrom] at hm
  | succ f ih =>
      intro pos m hm
      rw [finditerFrom_step] at hm
      by_cases hpos : pos ≤ s.length
      · rw [if_pos hpos] at hm
        cases htm : tryMatch re s pos with
        | none => rw [htm] at hm; exact ih _ m hm
        | some ec =>
            obtain ⟨e, c⟩ := ec
            rw [htm] at hm
            rcases List.mem_cons.mp hm with hEq | hm2
            · subst hEq; exact htm
            · exact ih _ m hm2
      · rw [if_neg hpos] at hm; simp at hm

/-- A pattern that opens with a width-one negative lookbehind can only match
where the guard character class rejects the preceding character. -/
theorem runM_lbNeg_guard (p : Char → Bool) (b : RE) (s : List Char) (pos : Nat)
    (caps : Caps) (k : Nat → Caps → Option (Nat × Caps)) (f : Nat) (r : Nat × Caps)
    (h : runM (f + 2) (.cat (.lbNeg p) b) s pos caps k = some r) :
    pos = 0 ∨ ∀ c, s.get? (pos - 1) = some c → p c = false := by
  by_cases hp : pos = 0
  · exact Or.inl hp
  · refine Or.inr (fun c hc => ?_)
    rw [runM_cat_step, runM_lbNeg_step, if_neg hp, hc] at h
    have h2 : (if p c = true then none else runM (f + 1) b s pos caps k) = some r := h
    cases hpc : p c with
    | false => rfl
    | true => rw [hpc] at h2; simp at h2

theorem tryMatch_reBare_guard (s : List Char) (pos : Nat) (r : Nat × Caps)
    (h : tryMatch reBare s pos = some r) :
    pos = 0 ∨ ∀ c, s.get? (pos - 1) = some c → alphaDot c = false := by
  unfold tryMatch at h
  obtain ⟨f, hf⟩ : ∃ f, 2 * s.length + 100 = f + 2 := ⟨2 * s.length + 98, by omega⟩
  rw [hf] at h
  exact runM_lbNeg_guard alphaDot _ s pos [] _ f r h

/-! ## Claim theorems -/

/-- Claim C4: a bare record reference whose immediately preceding character is
a letter or a period is never matched (the `_RE_BARE` negative lookbehind), so
rule citations are not mistaken for record references:
`extract_record_numbers("N.D.R.Civ.P. 12(b)")` does not contain 12 and
`extract_record_numbers("N.D.R.Ev. 401")` does not contain 401. -/
theorem claim_C4 :
    (∀ (text : List Char) (m : RMatch), m ∈ finditer reBare text → 1 ≤ m.mstart →
        ∀ c, text.get? (m.mstart - 1) = some c → alphaDot c = false)
    ∧ (12 : Nat) ∉ extract_record_numbers ("N.D.R.Civ.P. 12(b)".toList)
    ∧ (401 : Nat) ∉ extract_record_numbers ("N.D.R.Ev. 401".toList) := by
  refine ⟨?_, by decide, by decide⟩
  intro text m hm h1 c hc
  have htm := finditerFrom_mem_tryMatch reBare text (text.length + 1) 0 m hm
  rcases tryMatch_reBare_guard text m.mstart (m.mstop, m.caps) htm with h0 | hg
  · omega
  · exact hg c hc

/-- Witness for C4: the bare reference in `" R45"` is matched at position 1,
and its preceding character (a space) is indeed rejected by the guard class. -/
theorem claim_C4_witness :
    (⟨1, 4, [(1, 2, 4)]⟩ : RMatch) ∈ finditer reBare (" R45".toList)
    ∧ alphaDot ' ' = false :=
  ⟨by decide,
   claim_C4.1 (" R45".toList) ⟨1, 4, [(1, 2, 4)]⟩ (by decide) (by decide) ' ' (by decide)⟩

/-- Claim C5: `_expand_range` yields the two endpoints when the range is
decreasing or longer than 1000 items, and the full inclusive range otherwise;
consequently `extract_record_numbers` expands `(R45-R52)` fully, and treats
`(R52-R45)` and `(R1-R5000)` as endpoint pairs. -/
theorem claim_C5 :
    (∀ a b : Nat, expandRange a b
        = if b < a then {a, b}
          else if 1000 < b - a + 1 then {a, b}
          else Finset.Icc a b)
    ∧ extract_record_numbers ("(R45-R52)".toList) = Finset.Icc 45 52
    ∧ extract_record_numbers ("(R52-R45)".toList) = {52, 45}
    ∧ extract_record_numbers ("(R1-R5000)".toList) = {1, 5000} := by
  refine ⟨?_, by decide, by decide, by decide⟩
  intro a b
  unfold expandRange MAX_RANGE_SIZE
  by_cases h1 : b < a
  · rw [if_pos h1, if_pos h1]
  · rw [if_neg h1, if_neg h1]
    by_cases h2 : 1000 < b - a + 1
    · rw [if_pos h2, if_pos h2]
    · rw [if_neg h2, if_neg h2]
      ext n
      simp only [List.mem_toFinset, List.mem_range'_1, Finset.mem_Icc]
      omega

/-- The spec's reading of the non-range segment rule: "take only the number
preceding the first colon".  Stated independently of the matcher: the first
digit run of the (stripped) part of the normalized segment before its first
colon. -/
def specTakeBeforeColon (seg : List Char) : Finset Nat :=
  let segment := stripPref (pyStrip seg)
  let before := pyStrip (segment.takeWhile (fun c => c != ':'))
  match firstDigitRun before with
  | some ds => {digitsToNat ds}
  | none => ∅

/-- Claim C6: inside a parenthesized record group, a comma-separated segment
that is not a range contributes only the number preceding its first colon, so
page and paragraph sub-references are excluded; in particular
`extract_record_numbers("(R45:12:¶3)") = {45}`. -/
theorem claim_C6 :
    extract_record_numbers ("(R45:12:¶3)".toList) = {45}
    ∧ ∀ seg : List Char, tryMatch reInnerRange (stripPref (pyStrip seg)) 0 = none →
        segContribution seg = specTakeBeforeColon seg := by
  refine ⟨by decide, ?_⟩
  intro seg hnr
  unfold segContribution specTakeBeforeColon
  simp only [hnr, splitOnChar_headD]
  have h := reSearch_innerNum
    (pyStrip ((stripPref (pyStrip seg)).takeWhile (fun c => c != ':')))
  cases hs : reSearch reInnerNum
      (pyStrip ((stripPref (pyStrip seg)).takeWhile (fun c => c != ':'))) with
  | none =>
      rw [hs] at h
      simp only at h
      rw [← h]
  | some m =>
      rw [hs] at h
      simp only at h
      rw [← h]

/-- Witness for C6: the segment `"45:12"` has no range match, and its
contribution agrees with the spec-side reading. -/
theorem claim_C6_witness :
    segContribution ("45:12".toList) = specTakeBeforeColon ("45:12".toList) :=
  claim_C6.2 ("45:12".toList) (by decide)

/-- Claim C8: a statute section whose base text (after stripping parenthesized
subsections) does not split on a dash into at least a title and a chapter is
answered `exists=false` immediately, with zero network calls initiated. -/
theorem claim_C8 (net1 net2 : Except String HttpResp) (sect : List Char)
    (h : (splitOnChar '-' (pyStrip (reSubAll reParenSub sect))).length < 2) :
    ndStatutesLookup net1 net2 sect
      = (.ok { exists_ := false, source := "nd_statutes" }, 0) := by
  simp only [ndStatutesLookup]
  rw [if_pos h]

/-- Witness for C8: the dash-free section text `"garbage"` is rejected without
touching the network. -/
theorem claim_C8_witness :
    ((splitOnChar '-' (pyStrip (reSubAll reParenSub ("garbage".toList)))).length < 2)
    ∧ ndStatutesLookup (.ok ⟨200, []⟩) (.ok ⟨200, []⟩) ("garbage".toList)
        = (.ok { exists_ := false, source := "nd_statutes" }, 0) :=
  ⟨by decide, claim_C8 _ _ _ (by decide)⟩

theorem cacheGet_set_same (c : CacheT) (k : List Char) (v : VerificationResult)
    (e : Option Nat) : cacheGet (cacheSet c k v e) k = some v := by
  simp [cacheGet, cacheSet, List.find?]

theorem cacheGetExpire_set_same (c : CacheT) (k : List Char) (v : VerificationResult)
    (e : Option Nat) : cacheGetExpire (cacheSet c k v e) k = some e := by
  simp [cacheGetExpire, cacheSet, List.find?]

/-- Claim C2, corrected: on a cache hit the cached result is returned with no
lookup performed; when the lookup completes without raising, the result is
written back with no expiry for `exists=true` and a 86400-second expiry for
`exists=false`.  The claim's final universal — every code path that returns a
result persists it — fails on the exception path (see the counterexample), so
this theorem states the persistence guarantee only for completed lookups. -/
theorem claim_C2_amended :
    (∀ (st : CourtListenerClient) (cache : CacheT)
        (resp : Except String (Nat × List CLMatch)) (c : List Char)
        (r : VerificationResult),
        st.available = true → cacheGet cache c = some r →
        clVerifyCitation st cache resp c = (r, cache))
    ∧ (∀ (st : CourtListenerClient) (cache : CacheT)
        (resp : Except String (Nat × List CLMatch)) (c : List Char)
        (result : VerificationResult),
        st.available = true → cacheGet cache c = none →
        clLookupCitation c resp = .ok result →
        (clVerifyCitation st cache resp c).1 = result
        ∧ cacheGet (clVerifyCitation st cache resp c).2 c = some result
        ∧ cacheGetExpire (clVerifyCitation st cache resp c).2 c
            = some (if result.exists_ then none else some 86400))
    ∧ (∀ (cache : CacheT) (net1 net2 : Except String HttpResp) (sect : List Char)
        (r : VerificationResult),
        cacheGet cache sect = some r →
        ndVerifyStatute cache net1 net2 sect = (r, cache, 0))
    ∧ (∀ (cache : CacheT) (net1 net2 : Except String HttpResp) (sect : List Char)
        (result : VerificationResult) (n : Nat),
        cacheGet cache sect = none →
        ndStatutesLookup net1 net2 sect = (.ok result, n) →
        (ndVerifyStatute cache net1 net2 sect).1 = result
        ∧ cacheGet (ndVerifyStatute cache net1 net2 sect).2.1 sect = some result
        ∧ cacheGetExpire (ndVerifyStatute cache net1 net2 sect).2.1 sect
            = some (if result.exists_ then none else some 86400)) := by
  refine ⟨?_, ?_, ?_, ?_⟩
  · intro st cache resp c r h1 h2
    simp [clVerifyCitation, h1, h2]
  · intro st cache resp c result h1 h2 h3
    simp [clVerifyCitation, h1, h2, h3, cacheGet_set_same, cacheGetExpire_set_same]
  · intro cache net1 net2 sect r h
    simp [ndVerifyStatute, h]
  · intro cache net1 net2 sect result n h1 h2
    simp [ndVerifyStatute, h1, h2, cacheGet_set_same, cacheGetExpire_set_same]

/-- Witness for C2: a completed negative lookup on a cache miss is persisted
with the 24-hour expiry. -/
theorem claim_C2_witness :
    cacheGet (clVerifyCitation (mkCourtListenerClient ("key")) []
        (.ok (200, [])) ("410 U.S. 113".toList)).2 ("410 U.S. 113".toList)
      = some { exists_ := false, source := "courtlistener" }
    ∧ cacheGetExpire (clVerifyCitation (mkCourtListenerClient ("key")) []
        (.ok (200, [])) ("410 U.S. 113".toList)).2 ("410 U.S. 113".toList)
      = some (some 86400) := by
  have h := claim_C2_amended.2.1 (mkCourtListenerClient ("key")) [] (.ok (200, []))
    ("410 U.S. 113".toList) { exists_ := false, source := "courtlistener" }
    (by rfl) (by rfl) (by rfl)
  exact ⟨h.2.1, h.2.2⟩

/-- Counterexample to C2 as stated: with an available client, an empty cache
and a lookup that raises, `verify_citation` returns a result, yet nothing is
persisted to the cache — not every result-returning code path writes back. -/
theorem claim_C2_counterexample :
    (clVerifyCitation (mkCourtListenerClient ("key")) [] (.error ("boom"))
        ("410 U.S. 113".toList)).1
      = { exists_ := false, error := "boom", source := "courtlistener" }
    ∧ (clVerifyCitation (mkCourtListenerClient ("key")) [] (.error ("boom"))
        ("410 U.S. 113".toList)).2 = [] := by
  exact ⟨rfl, rfl⟩

/-- Claim C3, corrected: exceptions from the lookup are caught at the adapter
boundary and converted to `exists=false` results whose `error` carries the
exception's message ("HTTP code" — never empty — for a non-2xx status of the
case-law API, which raises via `raise_for_status`).  The statute adapter,
however, checks status codes inline: a non-success status there produces
`exists=false` with an EMPTY error (see the counterexample), so the claim's
"non-empty error string" does not hold for it.  No exception propagates: every
embedded adapter call is a total function. -/
theorem claim_C3_amended :
    (∀ (st : CourtListenerClient) (cache : CacheT) (c : List Char) (msg : String),
        st.available = true → cacheGet cache c = none →
        (clVerifyCitation st cache (.error msg) c).1.exists_ = false
        ∧ (clVerifyCitation st cache (.error msg) c).1.error = msg)
    ∧ (∀ (st : CourtListenerClient) (cache : CacheT) (c : List Char)
        (status : Nat) (data : List CLMatch),
        st.available = true → cacheGet cache c = none →
        ¬(200 ≤ status ∧ status ≤ 299) →
        (clVerifyCitation st cache (.ok (status, data)) c).1.exists_ = false
        ∧ (clVerifyCitation st cache (.ok (status, data)) c).1.error
            = "HTTP " ++ toString status
        ∧ (clVerifyCitation st cache (.ok (status, data)) c).1.error ≠ "")
    ∧ (∀ (cache : CacheT) (net2 : Except String HttpResp) (sect : List Char)
        (msg : String),
        cacheGet cache sect = none →
        2 ≤ (splitOnChar '-' (pyStrip (reSubAll reParenSub sect))).length →
        (ndVerifyStatute cache (.error msg) net2 sect).1.exists_ = false
        ∧ (ndVerifyStatute cache (.error msg) net2 sect).1.error = msg) := by
  refine ⟨?_, ?_, ?_⟩
  · intro st cache c msg h1 h2
    simp [clVerifyCitation, clLookupCitation, h1, h2, NetExc.pyMessage]
  · intro st cache c status data h1 h2 h3
    have hB : (clVerifyCitation st cache (.ok (status, data)) c).1.error
        = "HTTP " ++ toString status := by
      simp [clVerifyCitation, clLookupCitation, h1, h2, h3, NetExc.pyMessage]
    refine ⟨by simp [clVerifyCitation, clLookupCitation, h1, h2, h3], hB, ?_⟩
    rw [hB]
    intro hE
    have h5 := congrArg String.length hE
    rw [String.length_append] at h5
    have hH : ("HTTP " : String).length = 5 := rfl
    have h0 : ("" : String).length = 0 := rfl
    rw [hH, h0] at h5
    omega
  · intro cache net2 sect msg h1 h2
    have hlk : ndStatutesLookup (.error msg) net2 sect = (.error msg, 1) := by
      simp only [ndStatutesLookup]
      rw [if_neg (by omega)]
    constructor
    · simp [ndVerifyStatute, h1, hlk]
    · simp [ndVerifyStatute, h1, hlk]

/-- Witness for C3: a connection-level exception from the case-law API lookup
is converted into a negative result carrying the exception message. -/
theorem claim_C3_witness :
    (clVerifyCitation (mkCourtListenerClient ("key")) [] (.error ("timeout"))
        ("410 U.S. 113".toList)).1.exists_ = false
    ∧ (clVerifyCitation (mkCourtListenerClient ("key")) [] (.error ("timeout"))
        ("410 U.S. 113".toList)).1.error = "timeout" :=
  claim_C3_amended.1 (mkCourtListenerClient ("key")) [] ("410 U.S. 113".toList)
    ("timeout") (by rfl) (by rfl)

/-- Counterexample to C3 as stated: the statute adapter, given non-success
HTTP statuses (404 then 500) for a well-formed section, returns
`exists=false` with an EMPTY error string. -/
theorem claim_C3_counterexample :
    (ndVerifyStatute [] (.ok ⟨404, []⟩) (.ok ⟨500, []⟩) ("14-09-06.2".toList)).1.exists_
      = false
    ∧ (ndVerifyStatute [] (.ok ⟨404, []⟩) (.ok ⟨500, []⟩) ("14-09-06.2".toList)).1.error
      = "" := by
  exact ⟨rfl, rfl⟩

/-- Claim C9: constructing the adapters with an empty API credential or an
empty local-data directory never raises (the embedded constructors are total
functions) and marks the adapter unavailable, and calling an unavailable
adapter returns `exists=false` instead of raising. -/
theorem claim_C9 :
    (∀ fsIsDir : String → Bool, (mkLocalOpinionLookup fsIsDir ("")).available = false)
    ∧ (mkCourtListenerClient ("")).available = false
    ∧ (∀ (lk : LocalOpinionLookup) (fsIsFile : String → Bool)
          (readText : String → List Char) (c : List Char),
        lk.available = false →
        (localVerifyCitation lk fsIsFile readText c).exists_ = false
        ∧ (localVerifyCitation lk fsIsFile readText c).error
            = "Local data not configured")
    ∧ (∀ (st : CourtListenerClient) (cache : CacheT)
          (resp : Except String (Nat × List CLMatch)) (c : List Char),
        st.available = false →
        (clVerifyCitation st cache resp c).1.exists_ = false
        ∧ (clVerifyCitation st cache resp c).1.error = "No API key"
        ∧ (clVerifyCitation st cache resp c).2 = cache) := by
  refine ⟨fun _ => rfl, rfl, ?_, ?_⟩
  · intro lk fsIsFile readText c h
    constructor <;> simp [localVerifyCitation, h]
  · intro st cache resp c h
    refine ⟨?_, ?_, ?_⟩ <;> simp [clVerifyCitation, h]

/-- Witness for C9: the adapters built from empty configuration are
unavailable, and calling them yields negative results. -/
theorem claim_C9_witness :
    (localVerifyCitation (mkLocalOpinionLookup (fun _ => true) (""))
        (fun _ => true) (fun _ => []) ("2020 ND 5".toList)).exists_ = false
    ∧ (clVerifyCitation (mkCourtListenerClient ("")) [] (.ok (200, []))
        ("410 U.S. 113".toList)).1.exists_ = false :=
  ⟨(claim_C9.2.2.1 _ _ _ _ (claim_C9.1 _)).1,
   (claim_C9.2.2.2 _ _ _ _ claim_C9.2.1).1⟩

/-- Claim C1: the case fallback chain attempts exactly the applicable sources
in the fixed order (local data when ND and available, the case-law API when a
credential is configured, the ND Courts scraper when ND), stops at the first
`exists=true` result, and otherwise synthesizes a negative result whose error
lists exactly the attempted sources — the fixed no-sources message when none
was applicable. -/
theorem claim_C1 (la ca : Bool) (ll cl nd : List Char → VerificationResult)
    (cite : Citation) :
    (verifyCase la ca ll cl nd cite).2
      = attemptedSources (chainSources (cite.citation_type == "nd_case")
          la ca ll cl nd cite.normalized)
    ∧ (∀ r, chainOutcome (chainSources (cite.citation_type == "nd_case")
          la ca ll cl nd cite.normalized) = some r →
        (verifyCase la ca ll cl nd cite).1 = r)
    ∧ (chainOutcome (chainSources (cite.citation_type == "nd_case")
          la ca ll cl nd cite.normalized) = none →
        (verifyCase la ca ll cl nd cite).1.exists_ = false
        ∧ (verifyCase la ca ll cl nd cite).1.source = "none"
        ∧ (verifyCase la ca ll cl nd cite).1.full_citation = String.mk cite.normalized
        ∧ attemptedSources (chainSources (cite.citation_type == "nd_case")
            la ca ll cl nd cite.normalized)
          = (chainSources (cite.citation_type == "nd_case")
              la ca ll cl nd cite.normalized).map (fun p => p.1)
        ∧ (verifyCase la ca ll cl nd cite).1.error
          = (if (verifyCase la ca ll cl nd cite).2.isEmpty then
              "No verification sources available (set COURTLISTENER_API_KEY or COURT_DATA)"
            else "Not found in "
              ++ String.intercalate (", ") (verifyCase la ca ll cl nd cite).2)) := by
  cases hnd : cite.citation_type == "nd_case" <;>
    cases la <;> cases ca <;>
    cases hr1 : (ll cite.normalized).exists_ <;>
    cases hr2 : (cl cite.normalized).exists_ <;>
    cases hr3 : (nd cite.normalized).exists_ <;>
    simp_all [verifyCase, chainSources, attemptedSources, chainOutcome]

/-- Witness for C1: a U.S. Supreme Court citation with local data configured
but no API credential attempts zero sources and yields the fixed no-sources
error. -/
theorem claim_C1_witness :
    (verifyCase true false (fun _ => { exists_ := false })
        (fun _ => { exists_ := false }) (fun _ => { exists_ := false })
        ⟨("410 U.S. 113".toList), "us_case", ("410 U.S. 113".toList), [], 1⟩).2 = []
    ∧ (verifyCase true false (fun _ => { exists_ := false })
        (fun _ => { exists_ := false }) (fun _ => { exists_ := false })
        ⟨("410 U.S. 113".toList), "us_case", ("410 U.S. 113".toList), [], 1⟩).1.exists_
      = false
    ∧ (verifyCase true false (fun _ => { exists_ := false })
        (fun _ => { exists_ := false }) (fun _ => { exists_ := false })
        ⟨("410 U.S. 113".toList), "us_case", ("410 U.S. 113".toList), [], 1⟩).1.error
      = "No verification sources available (set COURTLISTENER_API_KEY or COURT_DATA)" := by
  have h := claim_C1 true false (fun _ => { exists_ := false })
    (fun _ => { exists_ := false }) (fun _ => { exists_ := false })
    ⟨("410 U.S. 113".toList), "us_case", ("410 U.S. 113".toList), [], 1⟩
  have h3 := h.2.2 rfl
  refine ⟨by rw [h.1]; rfl, h3.1, ?_⟩
  have h5 := h3.2.2.2.2
  have e2 : (verifyCase true false (fun _ => { exists_ := false })
      (fun _ => { exists_ := false }) (fun _ => { exists_ := false })
      ⟨("410 U.S. 113".toList), "us_case", ("410 U.S. 113".toList), [], 1⟩).2 = [] := by
    rw [h.1]; rfl
  rw [e2] at h5
  simpa using h5

theorem vmStep_foldl_inv (o : Citation → VerificationResult) :
    ∀ (l : List Citation) (rep : VerificationReport),
      rep.verified.length + rep.unverified.length = rep.total_checked →
      (l.foldl (vmStep o) rep).verified.length
        + (l.foldl (vmStep o) rep).unverified.length
        = (l.foldl (vmStep o) rep).total_checked := by
  intro l
  induction l with
  | nil => intro rep h; simpa using h
  | cons c rest ih =>
      intro rep h
      rw [List.foldl_cons]
      apply ih
      cases hres : (o c).exists_ <;> simp [vmStep, hres] <;> omega

theorem skipStep_foldl_inv :
    ∀ (l : List Citation) (rep : VerificationReport),
      (l.foldl skipStep rep).verified = rep.verified
      ∧ (l.foldl skipStep rep).unverified = rep.unverified
      ∧ (l.foldl skipStep rep).total_checked = rep.total_checked := by
  intro l
  induction l with
  | nil => intro rep; exact ⟨rfl, rfl, rfl⟩
  | cons c rest ih =>
      intro rep
      rw [List.foldl_cons]
      have h := ih (skipStep rep c)
      have hv : (skipStep rep c).verified = rep.verified := by
        unfold skipStep; split <;> rfl
      have hu : (skipStep rep c).unverified = rep.unverified := by
        unfold skipStep; split <;> rfl
      have ht : (skipStep rep c).total_checked = rep.total_checked := by
        unfold skipStep; split <;> rfl
      exact ⟨h.1.trans hv, h.2.1.trans hu, h.2.2.trans ht⟩

/-- Claim C7: the report summary is exactly the fixed format string over the
list lengths and `total_checked`, and verified + unverified = total_checked
(skipped citations are never counted in `total_checked`). -/
theorem claim_C7 (caseOracle : Citation → VerificationResult)
    (statuteOracle : List Char → VerificationResult) (memo : List Char) :
    reportSummary (verify_memo caseOracle statuteOracle memo)
      = "Verified: "
        ++ toString (verify_memo caseOracle statuteOracle memo).verified.length
        ++ " | Unverified: "
        ++ toString (verify_memo caseOracle statuteOracle memo).unverified.length
        ++ " | Skipped: "
        ++ toString (verify_memo caseOracle statuteOracle memo).skipped.length
        ++ " | Total: "
        ++ toString (verify_memo caseOracle statuteOracle memo).total_checked
    ∧ (verify_memo caseOracle statuteOracle memo).verified.length
        + (verify_memo caseOracle statuteOracle memo).unverified.length
      = (verify_memo caseOracle statuteOracle memo).total_checked := by
  constructor
  · rfl
  · have key : ∀ (r2 : VerificationReport),
        r2.verified.length + r2.unverified.length = r2.total_checked →
        ∀ l : List Citation,
          (l.foldl skipStep r2).verified.length
            + (l.foldl skipStep r2).unverified.length
            = (l.foldl skipStep r2).total_checked := by
      intro r2 h l
      obtain ⟨hv, hu, ht⟩ := skipStep_foldl_inv l r2
      rw [hv, hu, ht]
      exact h
    exact key _ (vmStep_foldl_inv _ _ _ (vmStep_foldl_inv _ _ _ rfl)) _

/-! ## Ordering of `parse_citations` output (claim C10) -/

theorem mem_flatMapL {f : α → List β} {x : β} :
    ∀ {l : List α}, x ∈ flatMapL f l ↔ ∃ a ∈ l, x ∈ f a := by
  intro l
  induction l with
  | nil => simp [flatMapL]
  | cons a as ih => simp [flatMapL, List.mem_append, ih]

theorem pairwise_flatMapL {R : β → β → Prop} {f : α → List β} :
    ∀ {l : List α}, (∀ a ∈ l, (f a).Pairwise R) →
      l.Pairwise (fun a b => ∀ x ∈ f a, ∀ y ∈ f b, R x y) →
      (flatMapL f l).Pairwise R := by
  intro l
  induction l with
  | nil => intro _ _; simp [flatMapL]
  | cons a as ih =>
      intro h1 h2
      rcases List.pairwise_cons.mp h2 with ⟨hhead, htail⟩
      show (f a ++ flatMapL f as).Pairwise R
      rw [List.pairwise_append]
      refine ⟨h1 a (by simp), ih (fun b hb => h1 b (by simp [hb])) htail, ?_⟩
      intro x hx y hy
      rcases mem_flatMapL.mp hy with ⟨b, hb, hyb⟩
      exact hhead b hb x hx y hyb

theorem enumFromN_fst_ge : ∀ (l : List α) (n : Nat) (x : Nat × α),
    x ∈ enumFromN n l → n ≤ x.1 := by
  intro l
  induction l with
  | nil => intro n x hx; simp [enumFromN] at hx
  | cons a as ih =>
      intro n x hx
      rcases List.mem_cons.mp hx with rfl | h
      · simp
      · have := ih (n + 1) x h; omega

theorem enumFromN_pairwise (l : List α) : ∀ n : Nat,
    (enumFromN n l).Pairwise (fun a b => a.1 < b.1) := by
  induction l with
  | nil => intro n; simp [enumFromN]
  | cons a as ih =>
      intro n
      refine List.Pairwise.cons ?_ (ih (n + 1))
      intro b hb
      have := enumFromN_fst_ge as (n + 1) b hb
      omega

theorem enumFromN_get : ∀ (l : List α) (n : Nat) (x : Nat × α),
    x ∈ enumFromN n l → l.get? (x.1 - n) = some x.2 := by
  intro l
  induction l with
  | nil => intro n x hx; simp [enumFromN] at hx
  | cons a as ih =>
      intro n x hx
      rcases List.mem_cons.mp hx with rfl | h
      · simp
      · have hge := enumFromN_fst_ge as (n + 1) x h
        have hrec := ih (n + 1) x h
        have harith : x.1 - n = (x.1 - (n + 1)) + 1 := by omega
        rw [harith]
        simpa using hrec

theorem finditerFrom_start_ge (re : RE) (s : List Char) :
    ∀ fuel pos m, m ∈ finditerFrom fuel re s pos → pos ≤ m.mstart := by
  intro fuel
  induction fuel with
  | zero => intro pos m hm; simp [finditerFrom] at hm
  | succ f ih =>
      intro pos m hm
      rw [finditerFrom_step] at hm
      by_cases hpos : pos ≤ s.length
      · rw [if_pos hpos] at hm
        cases htm : tryMatch re s pos with
        | none => rw [htm] at hm; have := ih _ m hm; omega
        | some ec =>
            obtain ⟨e, c⟩ := ec
            rw [htm] at hm
            rcases List.mem_cons.mp hm with rfl | h2
            · exact Nat.le_refl _
            · have := ih _ m h2
              by_cases he : pos < e
              · rw [if_pos he] at this; omega
              · rw [if_neg he] at this; omega
      · rw [if_neg hpos] at hm; simp at hm

theorem finditerFrom_pairwise (re : RE) (s : List Char) :
    ∀ fuel pos, (finditerFrom fuel re s pos).Pairwise
      (fun a b => a.mstart < b.mstart) := by
  intro fuel
  induction fuel with
  | zero => intro pos; simp [finditerFrom]
  | succ f ih =>
      intro pos
      rw [finditerFrom_step]
      by_cases hpos : pos ≤ s.length
      · rw [if_pos hpos]
        cases htm : tryMatch re s pos with
        | none => exact ih _
        | some ec =>
            obtain ⟨e, c⟩ := ec
            refine List.Pairwise.cons ?_ (ih _)
            intro b hb
            have hge := finditerFrom_start_ge re s f _ b hb
            show pos < b.mstart
            by_cases he : pos < e
            · rw [if_pos he] at hge; omega
            · rw [if_neg he] at hge; omega
      · rw [if_neg hpos]; exact List.Pairwise.nil

theorem finditer_pairwise (re : RE) (s : List Char) :
    (finditer re s).Pairwise (fun a b => a.mstart < b.mstart) :=
  finditerFrom_pairwise re s (s.length + 1) 0

/-- The per-line instrumented extraction: for each pattern (with its index in
the pattern library) all matches on the line, tagged with pattern index and
match start. -/
def lineTagged (i : Nat) (line : List Char) : List (Citation × Nat × Nat) :=
  flatMapL (fun kp => (finditer kp.2.2 line).map
    (fun m => (mkCitation kp.2.1 i line m, kp.1, m.mstart))) (enumFromN 0 PATTERNS)

theorem lineTagged_line_number (i : Nat) (line : List Char) :
    ∀ x ∈ lineTagged i line, x.1.line_number = i := by
  intro x hx
  rcases mem_flatMapL.mp hx with ⟨kp, _, hx2⟩
  rcases List.mem_map.mp hx2 with ⟨m, _, rfl⟩
  rfl

theorem lineTagged_ctype (i : Nat) (line : List Char) :
    ∀ x ∈ lineTagged i line,
      (PATTERNS.map (fun p => p.1)).get? x.2.1 = some x.1.citation_type := by
  intro x hx
  rcases mem_flatMapL.mp hx with ⟨kp, hkp, hx2⟩
  rcases List.mem_map.mp hx2 with ⟨m, _, rfl⟩
  have hg := enumFromN_get PATTERNS 0 kp hkp
  simp only [Nat.sub_zero] at hg
  rw [List.get?_map, hg]
  rfl

theorem lineTagged_pairwise (i : Nat) (line : List Char) :
    (lineTagged i line).Pairwise (fun a b =>
      a.2.1 < b.2.1 ∨ (a.2.1 = b.2.1 ∧ a.2.2 < b.2.2)) := by
  apply pairwise_flatMapL
  · intro kp _
    rw [List.pairwise_map]
    refine List.Pairwise.imp ?_ (finditer_pairwise kp.2.2 line)
    intro a b hab
    right
    exact ⟨rfl, hab⟩
  · refine List.Pairwise.imp ?_ (enumFromN_pairwise PATTERNS 0)
    intro a b hab x hx y hy
    rcases List.mem_map.mp hx with ⟨m, _, rfl⟩
    rcases List.mem_map.mp hy with ⟨m', _, rfl⟩
    left
    exact hab

theorem map_flatMapL (g : β → γ) (f : α → List β) :
    ∀ l : List α, (flatMapL f l).map g = flatMapL (fun a => (f a).map g) l := by
  intro l
  induction l with
  | nil => rfl
  | cons a as ih => simp [flatMapL, List.map_append, ih]

theorem lineTagged_map_fst (i : Nat) (line : List Char) :
    (lineTagged i line).map (fun t => t.1)
      = flatMapL (fun p => (finditer p.2 line).map (fun m => mkCitation p.1 i line m))
          PATTERNS := by
  unfold lineTagged
  rw [map_flatMapL]
  have key : ∀ (ps : List (String × RE)) (n : Nat),
      flatMapL (fun kp => ((finditer kp.2.2 line).map
          (fun m => (mkCitation kp.2.1 i line m, kp.1, m.mstart))).map (fun t => t.1))
        (enumFromN n ps)
      = flatMapL (fun p => (finditer p.2 line).map (fun m => mkCitation p.1 i line m))
          ps := by
    intro ps
    induction ps with
    | nil => intro n; rfl
    | cons p rest ih =>
        intro n
        show ((finditer p.2 line).map
            (fun m => (mkCitation p.1 i line m, n, m.mstart))).map (fun t => t.1)
            ++ _ = _
        rw [List.map_map, ih (n + 1)]
        rfl
  exact key PATTERNS 0

/-- The lexicographic order the claim describes: line number first, then
pattern-library index, then match start position. -/
def tagLt (a b : Citation × Nat × Nat) : Prop :=
  a.1.line_number < b.1.line_number
  ∨ (a.1.line_number = b.1.line_number
      ∧ (a.2.1 < b.2.1 ∨ (a.2.1 = b.2.1 ∧ a.2.2 < b.2.2)))

/-- Claim C10: `parse_citations` is the projection of its instrumented variant,
whose output is strictly sorted by (line number, pattern-library index, match
start) — i.e. grouped per line by citation kind in the fixed pattern order
with left-to-right matches inside each kind — and each tag index points at the
produced citation's kind in the pattern library. -/
theorem claim_C10 (text : List Char) :
    parse_citations text = (parse_citations_tagged text).map (fun t => t.1)
    ∧ (parse_citations_tagged text).Pairwise tagLt
    ∧ ∀ t ∈ parse_citations_tagged text,
        (PATTERNS.map (fun p => p.1)).get? t.2.1 = some t.1.citation_type := by
  refine ⟨?_, ?_, ?_⟩
  · unfold parse_citations parse_citations_tagged
    rw [map_flatMapL]
    congr 1
    funext il
    exact (lineTagged_map_fst il.1 il.2).symm
  · show (flatMapL (fun il => lineTagged il.1 il.2)
        (enumFromN 1 (splitLinesPy text))).Pairwise tagLt
    apply pairwise_flatMapL
    · intro il _
      refine List.Pairwise.imp_of_mem ?_ (lineTagged_pairwise il.1 il.2)
      intro a b ha hb hr
      right
      exact ⟨(lineTagged_line_number il.1 il.2 a ha).trans
        (lineTagged_line_number il.1 il.2 b hb).symm, hr⟩
    · refine List.Pairwise.imp ?_ (enumFromN_pairwise (splitLinesPy text) 1)
      intro a b hab x hx y hy
      left
      rw [lineTagged_line_number a.1 a.2 x hx, lineTagged_line_number b.1 b.2 y hy]
      exact hab
  · intro t ht
    rcases mem_flatMapL.mp ht with ⟨il, _, ht2⟩
    exact lineTagged_ctype il.1 il.2 t ht2

/-- Witness for C10: the single citation of `"2019 ND 112"` is tagged with
pattern index 0, which names its kind `nd_case` in the pattern library. -/
theorem claim_C10_witness :
    (PATTERNS.map (fun p => p.1)).get? 0 = some "nd_case" :=
  (claim_C10 ("2019 ND 112".toList)).2.2
    (⟨("2019 ND 112".toList), "nd_case", ("2019 ND 112".toList),
      ("2019 ND 112".toList), 1⟩, 0, 0)
    (by decide)

end MemoDrafter
